import Mathlib

/-!
Verification of the Parallax analysis pipeline (py-agent).

Shallow embedding of `core/agent.py`, `core/scraper_client.py` and `api.py`:
pure Lean functions mirror the Python control flow, with the external
collaborators (LLM inference, narrative synthesis, omission detection, source
naming) passed in as function parameters and the database cache modelled as an
explicit list of rows threaded through the computation.
-/

set_option linter.unusedVariables false

/-- Python truthiness of an optional string: `None` and `""` are falsy. -/
def truthyOpt (o : Option String) : Bool :=
  match o with
  | some s => s != ""
  | none => false

/-- Structured classification output (`ArticleAnalysis` pydantic model in
`core/agent.py`): a political-bias label and a one-sentence summary. -/
structure ArticleAnalysis where
  bias : String
  summary : String
deriving Repr, DecidableEq

/-- A raw article record as passed into `run_full_analysis` (a Python dict in
the source).  `content`/`text`/`url` model `article.get(...)` lookups that may
be absent (`none`) or empty; `repr` models `str(article)`, the last-resort
stringification; `title`/`source` are the display fields used by the API. -/
structure Article where
  url : Option String
  title : String
  source : String
  content : Option String
  text : Option String
  repr : String
deriving Repr, DecidableEq

/-- Python `a or b` on an optional string against a fallback: the fallback is
used when the first operand is `None` or `""`. -/
def orTruthy (o : Option String) (fallback : String) : String :=
  match o with
  | some s => if s = "" then fallback else s
  | none => fallback

/-- Embedding of `article.get("content") or article.get("text") or str(article)`
(`core/agent.py` line 97): the content-resolution fallback chain. -/
def resolveText (a : Article) : String :=
  orTruthy a.content (orTruthy a.text a.repr)

/-- A filtered article kept for classification (dict built at
`core/agent.py` line 99): its URL (possibly absent) and resolved text. -/
structure ValidArticle where
  url : Option String
  text : String
deriving Repr, DecidableEq

/-- The valid-article filter of `run_full_analysis` (`core/agent.py`
lines 95-99): keep an article iff its resolved text is truthy and strictly
longer than 100 characters. -/
def validArticles (articles : List Article) : List ValidArticle :=
  articles.filterMap (fun a =>
    let t := resolveText a
    if t ≠ "" ∧ t.length > 100 then some { url := a.url, text := t } else none)

/-- A row of the `analysis_results` table (`core/database.py`); all columns
are nullable. -/
structure CacheEntry where
  topic : Option String
  url : Option String
  bias_rating : Option String
  summary : Option String
  content : Option String
deriving Repr, DecidableEq

/-- The rows matching `AnalysisResult.url == article.get("url")`.  A `NULL`
article URL matches nothing (SQL `= NULL` is never true). -/
def urlMatches (cache : List CacheEntry) (url : Option String) : List CacheEntry :=
  match url with
  | none => []
  | some u => cache.filter (fun e => e.url == some u)

/-- ORM row update: replace the first row whose `url` column equals `url`. -/
def cacheReplace (url : Option String) (e' : CacheEntry) :
    List CacheEntry → List CacheEntry
  | [] => []
  | e :: rest =>
    if e.url == url then e' :: rest else e :: cacheReplace url e' rest

/-- The DB-save step after a fresh inference (`core/agent.py` lines 134-154):
re-check existence, then update the existing row or insert a new one.  Two
rows with the same URL make `scalar_one_or_none` raise, which the surrounding
`try` swallows, leaving the cache unchanged. -/
def saveResult (topic : String) (a : ValidArticle) (an : ArticleAnalysis)
    (cache : List CacheEntry) : List CacheEntry :=
  match urlMatches cache a.url with
  | [e] => cacheReplace a.url
      { e with bias_rating := some an.bias, summary := some an.summary,
               content := some a.text, topic := some topic } cache
  | [] => cache ++ [{ topic := some topic, url := a.url,
                      bias_rating := some an.bias, summary := some an.summary,
                      content := some a.text }]
  | _ => cache

/-- Result of `process_article`: the classification (or `none` on inference
failure), the cache after the call, and the number of inference calls made. -/
structure PAResult where
  analysis : Option ArticleAnalysis
  cache : List CacheEntry
  inferCalls : Nat
deriving Repr, DecidableEq

/-- The fresh-inference path of `process_article` (`core/agent.py`
lines 127-159): `infer = none` models the LLM call raising; `cacheWriteOk =
false` models the DB save raising (logged, result still returned). -/
def runAnalysisStep (topic : String) (a : ValidArticle)
    (cache : List CacheEntry) (infer : Option ArticleAnalysis)
    (cacheWriteOk : Bool) : PAResult :=
  match infer with
  | none => { analysis := none, cache := cache, inferCalls := 1 }
  | some an =>
    { analysis := some an,
      cache := if cacheWriteOk then saveResult topic a an cache else cache,
      inferCalls := 1 }

/-- The committed cache-hit update (`core/agent.py` lines 116-122): rebind the
row's `topic` to the current topic and backfill `content` when missing. -/
def hitUpdate (topic : String) (a : ValidArticle) (e : CacheEntry) : CacheEntry :=
  { e with
    topic := some topic,
    content := if truthyOpt e.content then e.content else some a.text }

/-- Embedding of `process_article` (`core/agent.py` lines 108-159).  Cache hit requires a
unique matching row with a truthy `summary`; the hit commits the topic rebind
and content backfill, then builds the result from the cached fields — a `NULL`
`bias_rating` makes the pydantic constructor raise after the commit, falling
through to fresh inference.  `cacheReadOk = false` models the cache lookup
raising. -/
def process_article (topic : String) (a : ValidArticle)
    (cache : List CacheEntry) (cacheReadOk : Bool)
    (infer : Option ArticleAnalysis) (cacheWriteOk : Bool) : PAResult :=
  let hitStep : Option (CacheEntry × List CacheEntry) :=
    if cacheReadOk then
      match urlMatches cache a.url with
      | [e] =>
        if truthyOpt e.summary then
          some (hitUpdate topic a e, cacheReplace a.url (hitUpdate topic a e) cache)
        else none
      | _ => none
    else none
  match hitStep with
  | some (e', cache') =>
    match e'.bias_rating with
    | some b =>
      { analysis := some { bias := b, summary := e'.summary.getD "" },
        cache := cache', inferCalls := 0 }
    | none => runAnalysisStep topic a cache' infer cacheWriteOk
  | none => runAnalysisStep topic a cache infer cacheWriteOk

/-- Accumulated result of one sequential lane (`for art in batch: ...`,
`core/agent.py` lines 166-173). -/
structure BatchResult where
  results : List ArticleAnalysis
  cache : List CacheEntry
  calls : Nat
deriving Repr, DecidableEq

/-- One lane of the classification stage: articles processed sequentially,
successes appended in order, the cache threaded through. -/
def processBatch (topic : String) (batch : List ValidArticle)
    (cache : List CacheEntry) (infer : ValidArticle → Option ArticleAnalysis) :
    BatchResult :=
  match batch with
  | [] => { results := [], cache := cache, calls := 0 }
  | a :: rest =>
    let r := process_article topic a cache true (infer a) true
    let b := processBatch topic rest r.cache infer
    { results := r.analysis.toList ++ b.results, cache := b.cache,
      calls := r.inferCalls + b.calls }

/-- Per-article outcomes of a lane, in input order (`some` = success kept,
`none` = inference failure dropped). -/
def laneOutcomes (topic : String) (batch : List ValidArticle)
    (cache : List CacheEntry) (infer : ValidArticle → Option ArticleAnalysis) :
    List (Option ArticleAnalysis) :=
  match batch with
  | [] => []
  | a :: rest =>
    let r := process_article topic a cache true (infer a) true
    r.analysis :: laneOutcomes topic rest r.cache infer

/-- Bias-label coercion of the grouping loop (`core/agent.py` lines 179-187):
an unexpected label falls back to `Center`. -/
def normBias (b : String) : String :=
  if b = "Left" ∨ b = "Center" ∨ b = "Right" then b else "Center"

/-- The summaries grouped under bias label `b`, in classification-result
order. -/
def biasGroup (results : List ArticleAnalysis) (b : String) : List String :=
  results.filterMap (fun r => if normBias r.bias = b then some r.summary else none)

/-- Exact placeholder narrative for an empty bias group
(`core/agent.py` line 196). -/
def placeholderNarrative : String := "No articles found for this perspective."

/-- Embedding of `"\n- ".join(summaries)` (`core/agent.py` line 194). -/
def joinSummaries (ss : List String) : String := String.intercalate "\n- " ss

/-- Narrative text for one bias (`core/agent.py` lines 191-196): synthesize
when the group is non-empty, otherwise the fixed placeholder. -/
def narrativeText (synth : String → String → String → String)
    (b topic : String) (ss : List String) : String :=
  if ss = [] then placeholderNarrative else synth b topic (joinSummaries ss)

/-- Number of synthesis inference calls made for one bias group. -/
def narrativeCalls (ss : List String) : Nat := if ss = [] then 0 else 1

/-- The `bias_counts` dict of `run_full_analysis`. -/
structure BiasCounts where
  left : Nat
  center : Nat
  right : Nat
deriving Repr, DecidableEq

/-- The Left/Right narratives dict. -/
structure Narratives where
  left : String
  right : String
deriving Repr, DecidableEq

/-- Observable outcome of one `run_full_analysis` call, instrumented with the
classification results list, the final cache state and call counters. -/
structure RunOutcome where
  classified : List ArticleAnalysis
  bias_counts : BiasCounts
  narratives : Narratives
  omission_report : String
  cache : List CacheEntry
  inferCalls : Nat
  synthLeftCalls : Nat
  synthRightCalls : Nat
  omissionCalls : Nat
deriving Repr, DecidableEq

/-- Embedding of `run_full_analysis` (`core/agent.py` lines 16-212): filter, split 50/50,
classify both lanes sequentially, group by bias, synthesize Left/Right
narratives (placeholder for empty groups), always detect omissions once.
`inferA`/`inferB` are the two lane backends, `synth` the synthesizer chain,
`omitFn` the omission chain. -/
def run_full_analysis (topic : String) (articles : List Article)
    (cache0 : List CacheEntry)
    (inferA inferB : ValidArticle → Option ArticleAnalysis)
    (synth : String → String → String → String)
    (omitFn : String → String → String → String) : RunOutcome :=
  let valid := validArticles articles
  let midpoint := valid.length / 2
  let batchA := processBatch topic (valid.take midpoint) cache0 inferA
  let batchB := processBatch topic (valid.drop midpoint) batchA.cache inferB
  let results := batchA.results ++ batchB.results
  let leftGroup := biasGroup results "Left"
  let centerGroup := biasGroup results "Center"
  let rightGroup := biasGroup results "Right"
  let leftN := narrativeText synth "Left" topic leftGroup
  let rightN := narrativeText synth "Right" topic rightGroup
  { classified := results,
    bias_counts := { left := leftGroup.length, center := centerGroup.length,
                     right := rightGroup.length },
    narratives := { left := leftN, right := rightN },
    omission_report := omitFn topic leftN rightN,
    cache := batchB.cache,
    inferCalls := batchA.calls + batchB.calls,
    synthLeftCalls := narrativeCalls leftGroup,
    synthRightCalls := narrativeCalls rightGroup,
    omissionCalls := 1 }

/-- Python `str.strip()`: remove leading and trailing whitespace.  Defined
over the character list so that it evaluates by kernel reduction. -/
def pyStrip (s : String) : String :=
  String.mk (((s.data.dropWhile Char.isWhitespace).reverse.dropWhile Char.isWhitespace).reverse)

/-- One item of the Go scraper's JSON response
(`core/scraper_client.py` line 58). -/
structure ScrapeItem where
  url : String
  title : String
  content : Option String
  status : String
deriving Repr, DecidableEq

/-- The per-attempt filtering of `fetch_articles` (`core/scraper_client.py`
lines 58-71): keep only `status == "success"` items whose stripped content is
non-empty and at least 100 characters, building article dicts.  `srcName`
stands for `_source_from_url` (a stdlib URL-parsing helper). -/
def fetch_articles_once (srcName : String → String) (data : List ScrapeItem) :
    List Article :=
  data.filterMap (fun item =>
    if item.status ≠ "success" then none
    else
      let c := pyStrip (item.content.getD "")
      if c = "" ∨ c.length < 100 then none
      else some { url := some item.url, title := item.title,
                  content := some c, text := none, repr := "",
                  source := srcName item.url })

/-- The retry loop of `fetch_articles` (`core/scraper_client.py` lines 41-83):
each attempt either fails outright (`none`: timeout/request error) or yields a
scraper response; the first attempt with a non-empty filtered article list
wins; after exhausting all attempts the result is `[]`. -/
def fetch_articles (srcName : String → String) :
    List (Option (List ScrapeItem)) → List Article
  | [] => []
  | none :: rest => fetch_articles srcName rest
  | some data :: rest =>
    let articles := fetch_articles_once srcName data
    if articles = [] then fetch_articles srcName rest else articles

/-- One entry of the `sources` list returned to the frontend
(`api.py` lines 218-225 and 320). -/
structure SourceItem where
  url : String
  title : String
  source : String
deriving Repr, DecidableEq

/-- The `sources_list` assembly (`api.py` lines 218-225): every retrieved
article with a truthy `url`, in retrieval order; no deduplication. -/
def sourcesList (articles : List Article) : List SourceItem :=
  articles.filterMap (fun a =>
    match a.url with
    | some u =>
      if u = "" then none
      else some { url := u, title := a.title, source := a.source }
    | none => none)

/-- The non-empty URLs of the retrieved articles, in retrieval order. -/
def truthyUrls (articles : List Article) : List String :=
  articles.filterMap (fun a =>
    match a.url with
    | some u => if u = "" then none else some u
    | none => none)

/-- The error taxonomy of the synchronous endpoint (`api.py` lines 176-247):
blank topic, missing credentials, empty discovery, empty retrieval, and any
other exception. -/
inductive ApiError where
  | validation
  | config
  | notFound
  | unavailable
  | internal (msg : String)
deriving Repr, DecidableEq

/-- HTTP status code of each error kind (`api.py`: 400, 500, 404, 503, 500). -/
def statusCode : ApiError → Nat
  | .validation => 400
  | .config => 500
  | .notFound => 404
  | .unavailable => 503
  | .internal _ => 500

/-- Pipeline stages, for recording which stages a request reached. -/
inductive Stage where
  | discovery
  | retrieval
  | analysis
deriving Repr, DecidableEq

/-- The `AnalysisResponse` model of `api.py` (lines 68-75). -/
structure AnalysisResponse where
  success : Bool
  topic : String
  bias_counts : BiasCounts
  narratives : Narratives
  omission_report : String
  sources_count : Nat
  sources : List SourceItem
deriving Repr, DecidableEq

/-- Response assembly shared by `analyze_topic` (`api.py` lines 227-242) and
`_run_analysis_stream` (lines 318-329): `sources_count` is
`sum(bias_counts.values())`, `sources` the truthy-URL projection of the
retrieved articles. -/
def buildResponse (topic : String) (articles : List Article) (o : RunOutcome) :
    AnalysisResponse :=
  { success := true,
    topic := topic,
    bias_counts := o.bias_counts,
    narratives := o.narratives,
    omission_report := o.omission_report,
    sources_count := o.bias_counts.left + o.bias_counts.center + o.bias_counts.right,
    sources := sourcesList articles }

/-- Embedding of `analyze_topic` (`api.py` lines 170-247).  `urls` is the discovery
collaborator's result, `articles` the retrieval collaborator's result,
`agentExc = some msg` models `run_full_analysis` raising.  The second
component records which pipeline stages ran before the response was
produced. -/
def analyze_topic (topicRaw : String) (groqKey serpKey : Option String)
    (urls : List String) (articles : List Article) (agentExc : Option String)
    (cache0 : List CacheEntry)
    (inferA inferB : ValidArticle → Option ArticleAnalysis)
    (synth : String → String → String → String)
    (omitFn : String → String → String → String) :
    Except ApiError AnalysisResponse × List Stage :=
  let topic := pyStrip topicRaw
  if topic = "" then (.error .validation, [])
  else if ¬(truthyOpt groqKey && truthyOpt serpKey) = true then (.error .config, [])
  else if urls = [] then (.error .notFound, [.discovery])
  else if articles = [] then (.error .unavailable, [.discovery, .retrieval])
  else
    match agentExc with
    | some msg => (.error (.internal msg), [.discovery, .retrieval, .analysis])
    | none =>
      (.ok (buildResponse topic articles
             (run_full_analysis topic articles cache0 inferA inferB synth omitFn)),
       [.discovery, .retrieval, .analysis])

/-- An event put on the SSE queue by `_run_analysis_stream` (`api.py`
lines 250-334); `sentinel` is the final `None` marker closing the channel. -/
inductive StreamEvent where
  | progress (phase : String) (percent : Nat) (message : String)
  | result (data : AnalysisResponse)
  | error (detail : String)
  | sentinel
deriving Repr, DecidableEq

/-- The rotating heartbeat messages (`api.py` lines 292-301). -/
def analysisMessages : List String :=
  ["Classifying article bias...",
   "Processing with GPT-OSS 120B...",
   "Synthesizing left-wing narrative...",
   "Synthesizing right-wing narrative...",
   "Generating comprehensive overview...",
   "Detecting omissions between narratives...",
   "Cross-referencing perspectives...",
   "Finalizing analysis..."]

/-- The scraping progress percentage (`api.py` line 262):
`15 + int(45 * current / total)`, or 15 when `total` is zero. -/
def scrapePct (total current : Nat) : Nat :=
  if total = 0 then 15 else 15 + 45 * current / total

/-- Modelled from the spec: `fetch_articles_with_progress` is imported from
`core/scraper_client` but absent from the sources; per the spec it reports
one completed item at a time, so `on_scrape_progress` fires for
`current = 1, ..., k` with `k` items completed out of `total`. -/
def scrapeProgressEvents (total k : Nat) : List StreamEvent :=
  (List.range k).map (fun i =>
    .progress "scraping" (scrapePct total (i + 1))
      ("Reading article " ++ toString (i + 1) ++ " of " ++ toString total))

/-- The heartbeat loop (`api.py` lines 290-308): every expired 3-second wait
advances the percentage by 3 while it is below 92, cycling through the
message list; waits after reaching 92 emit nothing.  `h` is the number of
expired waits, so `min h 9` events are emitted at 68, 71, ..., 92. -/
def heartbeatEvents (h : Nat) : List StreamEvent :=
  (List.range (min h 9)).map (fun i =>
    .progress "analysis" (68 + 3 * i) ((analysisMessages.get? (i % 8)).getD ""))

/-- Embedding of `_run_analysis_stream` (`api.py` lines 250-334) as the list of events put
on the queue, in order.  `scrapeK` is the number of per-item scrape progress
callbacks (spec-modelled, see `scrapeProgressEvents`), `heartbeats` the
number of expired heartbeat waits, `agentExc = some msg` models
`run_full_analysis` raising.  The `finally` block always appends the
`sentinel`. -/
def run_analysis_stream (topic : String) (urls : List String) (scrapeK : Nat)
    (articles : List Article) (heartbeats : Nat) (agentExc : Option String)
    (cache0 : List CacheEntry)
    (inferA inferB : ValidArticle → Option ArticleAnalysis)
    (synth : String → String → String → String)
    (omitFn : String → String → String → String) : List StreamEvent :=
  let p0 : StreamEvent := .progress "discovery" 5 "Finding sources..."
  if urls = [] then
    [p0, .error "No relevant sources found for this topic", .sentinel]
  else
    let pre := [p0,
      .progress "discovery" 15 ("Found " ++ toString urls.length ++ " sources"),
      .progress "scraping" 15 "Ingesting data..."]
      ++ scrapeProgressEvents urls.length scrapeK
    if articles = [] then
      pre ++ [.error "Could not fetch article content. The scraper may be starting up—please try again in a minute.", .sentinel]
    else
      let pre2 := pre ++ [.progress "scraping" 60 "Scraping complete",
                          .progress "analysis" 65 "Synthesizing narratives..."]
                  ++ heartbeatEvents heartbeats
      match agentExc with
      | some msg => pre2 ++ [.error msg, .sentinel]
      | none =>
        pre2 ++ [.progress "analysis" 95 "Almost done...",
                 .result (buildResponse topic articles
                   (run_full_analysis topic articles cache0 inferA inferB synth omitFn)),
                 .sentinel]

/-- Whether an event is a `progress` event. -/
def StreamEvent.isProgressEv : StreamEvent → Bool
  | .progress _ _ _ => true
  | _ => false

/-- Whether an event is terminal (`result` or `error`). -/
def StreamEvent.isTerminalEv : StreamEvent → Bool
  | .result _ => true
  | .error _ => true
  | _ => false

/-- The percentage carried by a `progress` event. -/
def StreamEvent.percentOf : StreamEvent → Option Nat
  | .progress _ p _ => some p
  | _ => none

/-- The percentages of the progress events of a stream, in order. -/
def pctsOf (evs : List StreamEvent) : List Nat :=
  evs.filterMap StreamEvent.percentOf

/-- A well-formed event stream: a prefix of progress events with
non-decreasing percentages, one terminal event (a `result` when `isOk`, an
`error` otherwise), then the single closing sentinel and nothing else. -/
def streamShape (evs : List StreamEvent) (isOk : Bool) : Prop :=
  ∃ pfx term, evs = pfx ++ [term, StreamEvent.sentinel] ∧
    (∀ e ∈ pfx, e.isProgressEv = true) ∧
    (pctsOf pfx).Pairwise (· ≤ ·) ∧
    (if isOk then ∃ r, term = StreamEvent.result r
     else ∃ d, term = StreamEvent.error d)

/-- A cache row's URL-keyed classification payload: the fields a later run
reuses (`url`, `bias_rating`, `summary`).  Two caches with the same skeleton
are indistinguishable to the cache-hit logic. -/
def entryKey (e : CacheEntry) : Option String × Option String × Option String :=
  (e.url, e.bias_rating, e.summary)

/-- The classification payloads of all cache rows, in row order. -/
def cacheSkeleton (cache : List CacheEntry) : List (Option String × Option String × Option String) :=
  cache.map entryKey

/-- Whether a list of classification payloads is a single usable row: exactly
one row, with a truthy summary and a non-`NULL` bias. -/
def goodKeyList : List (Option String × Option String × Option String) → Bool
  | [(_, b, s)] => truthyOpt s && b.isSome
  | _ => false

/-- The `(bias, summary)` pair of a single-row payload list. -/
def pairKeyList : List (Option String × Option String × Option String) → ArticleAnalysis
  | [(_, b, s)] => { bias := b.getD "", summary := s.getD "" }
  | _ => { bias := "", summary := "" }

/-- The article's URL has exactly one cache row, and that row has a truthy
`summary` and a non-`NULL` `bias_rating` — the condition under which
`process_article` serves the article from the cache. -/
def cachedGoodB (cache : List CacheEntry) (a : ValidArticle) : Bool :=
  goodKeyList ((urlMatches cache a.url).map entryKey)

/-- The `(bias, summary)` pair recorded in the cache for an article's URL. -/
def cachedPair (cache : List CacheEntry) (a : ValidArticle) : ArticleAnalysis :=
  pairKeyList ((urlMatches cache a.url).map entryKey)

/-- A cache row refreshed by the current run: its `topic` is the current topic
and its `content` is filled in. -/
def entryFresh (topic : String) (e : CacheEntry) : Prop :=
  e.topic = some topic ∧ truthyOpt e.content = true

/-- Concrete inference backend that always fails (for witnesses). -/
def inferNoneC : ValidArticle → Option ArticleAnalysis := fun _ => none

/-- Concrete inference backend returning a fixed Left classification. -/
def inferLeftC : ValidArticle → Option ArticleAnalysis :=
  fun _ => some { bias := "Left", summary := "s" }

/-- Concrete synthesizer collaborator (for witnesses). -/
def synthC : String → String → String → String := fun _ _ _ => "N"

/-- Concrete omission collaborator (for witnesses). -/
def omitC : String → String → String → String := fun _ _ _ => "O"

/-- Concrete source-name helper (for witnesses). -/
def srcIdC : String → String := fun u => u

/-- A 101-character article body. -/
def body101 : String := String.mk (List.replicate 101 'a')

/-- A concrete retrieved article with a 101-character body (for witnesses). -/
def artC : Article :=
  { url := some "u", title := "T", source := "S", content := some body101,
    text := none, repr := "" }

/-- A concrete article whose resolved content is exactly 100 characters. -/
def art100C : Article :=
  { url := some "u", title := "T", source := "S",
    content := some (String.mk (List.replicate 100 'a')), text := none,
    repr := "" }

/-- A concrete successful scraper item with a 101-character body. -/
def itemC : ScrapeItem :=
  { url := "u", title := "T", content := some body101, status := "success" }

/-- A concrete cache row for URL `u` under topic `T1` with a recorded
classification. -/
def entryT1C : CacheEntry :=
  { topic := some "T1", url := some "u", bias_rating := some "Left",
    summary := some "s", content := none }

/-- A concrete cache row for URL `u` whose `summary` column is the empty
string (a row the cache-hit logic refuses to serve). -/
def entryEmptySummaryC : CacheEntry :=
  { topic := some "T1", url := some "u", bias_rating := some "Left",
    summary := some "", content := some "c" }

/-! ## Theorems -/

/-- A lane's kept results are exactly the per-article outcomes, in input
order, with failures dropped. -/
theorem processBatch_results_eq (topic : String) (batch : List ValidArticle)
    (cache : List CacheEntry) (infer : ValidArticle → Option ArticleAnalysis) :
    (processBatch topic batch cache infer).results =
      (laneOutcomes topic batch cache infer).filterMap id := by
  induction batch generalizing cache with
  | nil => rfl
  | cons a rest ih =>
    cases h : (process_article topic a cache true (infer a) true).analysis <;>
      simp [processBatch, laneOutcomes, h, ih]

/-- C10: the classification stage's output preserves the relative input order
of the valid articles: the first-lane (first half) per-article successes in
input order, then the second-lane (second half) successes in input order; the
two lanes together are the valid articles in input order. -/
theorem classification_preserves_order (topic : String) (articles : List Article)
    (cache0 : List CacheEntry)
    (inferA inferB : ValidArticle → Option ArticleAnalysis)
    (synth omitFn : String → String → String → String) :
    (run_full_analysis topic articles cache0 inferA inferB synth omitFn).classified =
      (laneOutcomes topic ((validArticles articles).take ((validArticles articles).length / 2))
          cache0 inferA).filterMap id ++
      (laneOutcomes topic ((validArticles articles).drop ((validArticles articles).length / 2))
          (processBatch topic ((validArticles articles).take ((validArticles articles).length / 2))
            cache0 inferA).cache inferB).filterMap id ∧
    ((validArticles articles).take ((validArticles articles).length / 2)) ++
      ((validArticles articles).drop ((validArticles articles).length / 2)) =
      validArticles articles := by
  refine ⟨?_, List.take_append_drop _ _⟩
  show (processBatch topic _ cache0 inferA).results ++ (processBatch topic _ _ inferB).results = _
  rw [processBatch_results_eq, processBatch_results_eq]

/-- C9: the omission stage runs exactly once per run and receives both
narrative texts (placeholders included) as inputs. -/
theorem omission_always_once (topic : String) (articles : List Article)
    (cache0 : List CacheEntry)
    (inferA inferB : ValidArticle → Option ArticleAnalysis)
    (synth omitFn : String → String → String → String) :
    (run_full_analysis topic articles cache0 inferA inferB synth omitFn).omissionCalls = 1 ∧
    (run_full_analysis topic articles cache0 inferA inferB synth omitFn).omission_report =
      omitFn topic
        (run_full_analysis topic articles cache0 inferA inferB synth omitFn).narratives.left
        (run_full_analysis topic articles cache0 inferA inferB synth omitFn).narratives.right := by
  exact ⟨rfl, rfl⟩

/-- Per-group synthesis policy: placeholder and zero calls for an empty group,
one synthesis call on the joined summaries otherwise. -/
theorem narrative_policy (synth : String → String → String → String)
    (b topic : String) (ss : List String) :
    (ss = [] → narrativeText synth b topic ss = placeholderNarrative ∧ narrativeCalls ss = 0) ∧
    (ss ≠ [] → narrativeText synth b topic ss = synth b topic (joinSummaries ss) ∧ narrativeCalls ss = 1) := by
  constructor <;> intro h <;> simp [narrativeText, narrativeCalls, h]

/-- C8: for each of the Left and Right groups, an empty group yields the exact
placeholder narrative with no synthesis inference call, and a non-empty group
triggers exactly one synthesis call. -/
theorem synthesis_placeholder_policy (topic : String) (articles : List Article)
    (cache0 : List CacheEntry)
    (inferA inferB : ValidArticle → Option ArticleAnalysis)
    (synth omitFn : String → String → String → String) :
    let o := run_full_analysis topic articles cache0 inferA inferB synth omitFn
    (biasGroup o.classified "Left" = [] →
       o.narratives.left = placeholderNarrative ∧ o.synthLeftCalls = 0) ∧
    (biasGroup o.classified "Left" ≠ [] →
       o.narratives.left = synth "Left" topic (joinSummaries (biasGroup o.classified "Left")) ∧
       o.synthLeftCalls = 1) ∧
    (biasGroup o.classified "Right" = [] →
       o.narratives.right = placeholderNarrative ∧ o.synthRightCalls = 0) ∧
    (biasGroup o.classified "Right" ≠ [] →
       o.narratives.right = synth "Right" topic (joinSummaries (biasGroup o.classified "Right")) ∧
       o.synthRightCalls = 1) := by
  exact ⟨(narrative_policy synth "Left" topic _).1,
         (narrative_policy synth "Left" topic _).2,
         (narrative_policy synth "Right" topic _).1,
         (narrative_policy synth "Right" topic _).2⟩

/-- C8 witness: with no articles at all, both groups are empty, both
narratives are the placeholder, and no synthesis call is made. -/
theorem synthesis_placeholder_policy_witness :
    (run_full_analysis "t" [] [] inferNoneC inferNoneC synthC omitC).narratives.left =
      placeholderNarrative ∧
    (run_full_analysis "t" [] [] inferNoneC inferNoneC synthC omitC).synthLeftCalls = 0 :=
  (synthesis_placeholder_policy "t" [] [] inferNoneC inferNoneC synthC omitC).1 (by decide)

/-- C4 counterexample: an article whose resolved content is exactly 100
characters (at least 100, as the claim requires) is nevertheless excluded
before classification — the filter keeps only strictly more than 100. -/
theorem content_filter_cex :
    (resolveText art100C).length = 100 ∧ validArticles [art100C] = [] := by
  constructor <;> decide

/-- C4 (amended): every article whose resolved content (content field, else
text field, else stringified record) has length at most 100 is excluded
before classification, and every article whose resolved content is strictly
longer than 100 characters is retained. -/
theorem content_filter_strict (articles : List Article) :
    (∀ v ∈ validArticles articles,
       100 < v.text.length ∧ ∃ a ∈ articles, a.url = v.url ∧ resolveText a = v.text) ∧
    (∀ a ∈ articles, 100 < (resolveText a).length →
       ValidArticle.mk a.url (resolveText a) ∈ validArticles articles) := by
  constructor
  · intro v hv
    simp only [validArticles, List.mem_filterMap] at hv
    obtain ⟨a, ha, hif⟩ := hv
    by_cases hc : resolveText a ≠ "" ∧ (resolveText a).length > 100
    · rw [if_pos hc] at hif
      obtain rfl := Option.some.injEq _ _ ▸ hif
      refine ⟨hc.2, a, ha, rfl, rfl⟩
    · rw [if_neg hc] at hif
      exact absurd hif (by simp)
  · intro a ha hlen
    have hne : resolveText a ≠ "" := by
      intro h0
      rw [h0] at hlen
      simp at hlen
    simp only [validArticles, List.mem_filterMap]
    exact ⟨a, ha, by rw [if_pos ⟨hne, hlen⟩]⟩

/-- C4 witness: a 101-character article is retained with its resolved text. -/
theorem content_filter_strict_witness :
    ValidArticle.mk artC.url (resolveText artC) ∈ validArticles [artC] :=
  (content_filter_strict [artC]).2 artC (by decide) (by decide)

/-- C7: classification tolerates partial failure.  On a cache miss, a failed
inference call yields no result, leaves the cache untouched, and the lane
simply continues with the remaining articles; a cache read failure still
produces the article's classification (fresh inference), and a cache write
failure still returns the freshly inferred classification. -/
theorem classification_fault_tolerance (topic : String) (a : ValidArticle)
    (cache : List CacheEntry) (an : ArticleAnalysis) (rest : List ValidArticle)
    (infer : ValidArticle → Option ArticleAnalysis)
    (hmiss : urlMatches cache a.url = []) (hfail : infer a = none) :
    process_article topic a cache true none true =
      { analysis := none, cache := cache, inferCalls := 1 } ∧
    (processBatch topic (a :: rest) cache infer).results =
      (processBatch topic rest cache infer).results ∧
    (processBatch topic (a :: rest) cache infer).calls =
      1 + (processBatch topic rest cache infer).calls ∧
    (process_article topic a cache false (some an) true).analysis = some an ∧
    process_article topic a cache true (some an) false =
      { analysis := some an, cache := cache, inferCalls := 1 } := by
  refine ⟨?_, ?_, ?_, ?_, ?_⟩
  · simp [process_article, hmiss, runAnalysisStep]
  · simp [processBatch, process_article, hmiss, hfail, runAnalysisStep]
  · simp [processBatch, process_article, hmiss, hfail, runAnalysisStep]
  · simp [process_article, runAnalysisStep]
  · simp [process_article, hmiss, runAnalysisStep]

/-- C7 witness: concrete empty cache, failing backend — the article is
dropped, the stage continues, and injected cache failures never drop a
successfully classified article. -/
theorem classification_fault_tolerance_witness :
    process_article "t" ⟨some "u", "x"⟩ [] true none true =
      { analysis := none, cache := [], inferCalls := 1 } ∧
    (processBatch "t" [⟨some "u", "x"⟩] [] inferNoneC).results =
      (processBatch "t" [] [] inferNoneC).results ∧
    (processBatch "t" [⟨some "u", "x"⟩] [] inferNoneC).calls =
      1 + (processBatch "t" [] [] inferNoneC).calls ∧
    (process_article "t" ⟨some "u", "x"⟩ [] false (some ⟨"Left", "s"⟩) true).analysis =
      some ⟨"Left", "s"⟩ ∧
    process_article "t" ⟨some "u", "x"⟩ [] true (some ⟨"Left", "s"⟩) false =
      { analysis := some ⟨"Left", "s"⟩, cache := [], inferCalls := 1 } :=
  classification_fault_tolerance "t" ⟨some "u", "x"⟩ [] ⟨"Left", "s"⟩ [] inferNoneC
    (by decide) (by decide)

/-- The retrieval retry loop returns no articles exactly when every attempt
either failed outright or yielded no usable (successful, ≥100-character)
item. -/
theorem fetch_articles_empty_iff (srcName : String → String)
    (attempts : List (Option (List ScrapeItem))) :
    fetch_articles srcName attempts = [] ↔
      ∀ d ∈ attempts, ∀ data, d = some data → fetch_articles_once srcName data = [] := by
  induction attempts with
  | nil => simp [fetch_articles]
  | cons d rest ih =>
    cases d with
    | none => simp [fetch_articles, ih]
    | some data =>
      by_cases h : fetch_articles_once srcName data = []
      · simp [fetch_articles, h, ih]
      · simp [fetch_articles, h]

/-- C6: the orchestrator rejects a blank topic (ValidationError) and missing
credentials (ConfigError) before any stage runs; after validation it aborts
with NotFoundError exactly when discovery returned no URLs, and with
UnavailableError exactly when the retrieval retry loop produced no usable
articles; the four failure kinds map to pairwise distinct HTTP statuses
400, 500, 404, 503. -/
theorem orchestrator_error_taxonomy (topicRaw : String)
    (groqKey serpKey : Option String) (urls : List String)
    (srcName : String → String) (attempts : List (Option (List ScrapeItem)))
    (agentExc : Option String) (cache0 : List CacheEntry)
    (inferA inferB : ValidArticle → Option ArticleAnalysis)
    (synth omitFn : String → String → String → String) :
    (pyStrip topicRaw = "" →
       analyze_topic topicRaw groqKey serpKey urls (fetch_articles srcName attempts)
         agentExc cache0 inferA inferB synth omitFn = (.error .validation, [])) ∧
    (pyStrip topicRaw ≠ "" → (truthyOpt groqKey && truthyOpt serpKey) = false →
       analyze_topic topicRaw groqKey serpKey urls (fetch_articles srcName attempts)
         agentExc cache0 inferA inferB synth omitFn = (.error .config, [])) ∧
    (pyStrip topicRaw ≠ "" → (truthyOpt groqKey && truthyOpt serpKey) = true →
       (((analyze_topic topicRaw groqKey serpKey urls (fetch_articles srcName attempts)
            agentExc cache0 inferA inferB synth omitFn).1 = .error .notFound) ↔ urls = []) ∧
       (((analyze_topic topicRaw groqKey serpKey urls (fetch_articles srcName attempts)
            agentExc cache0 inferA inferB synth omitFn).1 = .error .unavailable) ↔
          (urls ≠ [] ∧ ∀ d ∈ attempts, ∀ data, d = some data →
             fetch_articles_once srcName data = []))) ∧
    ([statusCode .validation, statusCode .config, statusCode .notFound,
      statusCode .unavailable] = [400, 500, 404, 503] ∧
     List.Nodup [statusCode .validation, statusCode .config, statusCode .notFound,
                 statusCode .unavailable]) := by
  refine ⟨?_, ?_, ?_, by decide⟩
  · intro h
    simp [analyze_topic, h]
  · intro h hk
    simp [analyze_topic, h, hk]
  · intro h hk
    rw [← fetch_articles_empty_iff srcName attempts]
    by_cases h1 : urls = []
    · constructor
      · simp [analyze_topic, h, hk, h1]
      · simp [analyze_topic, h, hk, h1]
    · by_cases h2 : fetch_articles srcName attempts = []
      · constructor
        · simp [analyze_topic, h, hk, h1, h2]
        · simp [analyze_topic, h, hk, h1, h2]
      · constructor
        · cases agentExc <;> simp [analyze_topic, h, hk, h1, h2]
        · cases agentExc <;> simp [analyze_topic, h, hk, h1, h2]

/-- C6 witness: with a blank topic, the request is rejected as a validation
error with no pipeline stage run. -/
theorem orchestrator_error_taxonomy_witness :
    analyze_topic " " (some "k") (some "k") [] (fetch_articles srcIdC [])
      none [] inferNoneC inferNoneC synthC omitC = (.error .validation, []) :=
  (orchestrator_error_taxonomy " " (some "k") (some "k") [] srcIdC [] none []
    inferNoneC inferNoneC synthC omitC).1 (by decide)

/-- Unfolding of one grouping-loop iteration. -/
theorem biasGroup_cons (r : ArticleAnalysis) (rs : List ArticleAnalysis) (b : String) :
    biasGroup (r :: rs) b =
      if normBias r.bias = b then r.summary :: biasGroup rs b else biasGroup rs b := by
  by_cases h : normBias r.bias = b <;> simp [biasGroup, h]

/-- Every classification result lands in exactly one of the three bias
buckets (unexpected labels are coerced to Center), so the three counts sum to
the number of classification results. -/
theorem biasGroup_length_sum (results : List ArticleAnalysis) :
    (biasGroup results "Left").length + (biasGroup results "Center").length +
      (biasGroup results "Right").length = results.length := by
  induction results with
  | nil => rfl
  | cons r rs ih =>
    have h3 : normBias r.bias = "Left" ∨ normBias r.bias = "Center" ∨
        normBias r.bias = "Right" := by
      unfold normBias
      split
      · next h => rcases h with h | h | h <;> simp [h]
      · right; left; rfl
    rcases h3 with h | h | h
    · rw [biasGroup_cons, biasGroup_cons, biasGroup_cons, h, if_pos rfl,
        if_neg (by decide : ¬("Left" : String) = "Center"),
        if_neg (by decide : ¬("Left" : String) = "Right")]
      simp only [List.length_cons]
      omega
    · rw [biasGroup_cons, biasGroup_cons, biasGroup_cons, h, if_pos rfl,
        if_neg (by decide : ¬("Center" : String) = "Left"),
        if_neg (by decide : ¬("Center" : String) = "Right")]
      simp only [List.length_cons]
      omega
    · rw [biasGroup_cons, biasGroup_cons, biasGroup_cons, h, if_pos rfl,
        if_neg (by decide : ¬("Right" : String) = "Left"),
        if_neg (by decide : ¬("Right" : String) = "Center")]
      simp only [List.length_cons]
      omega

/-- Inversion: a successful `analyze_topic` response is the assembled
`buildResponse` over the retrieved articles and the pipeline outcome. -/
theorem analyze_topic_ok_inv (topicRaw : String) (groqKey serpKey : Option String)
    (urls : List String) (articles : List Article) (agentExc : Option String)
    (cache0 : List CacheEntry)
    (inferA inferB : ValidArticle → Option ArticleAnalysis)
    (synth omitFn : String → String → String → String) (r : AnalysisResponse)
    (h : (analyze_topic topicRaw groqKey serpKey urls articles agentExc cache0
            inferA inferB synth omitFn).1 = .ok r) :
    r = buildResponse (pyStrip topicRaw) articles
          (run_full_analysis (pyStrip topicRaw) articles cache0 inferA inferB
            synth omitFn) := by
  by_cases hA : pyStrip topicRaw = ""
  · simp [analyze_topic, hA] at h
  · by_cases hK : (truthyOpt groqKey && truthyOpt serpKey) = true
    · by_cases hU : urls = []
      · simp [analyze_topic, hA, hK, hU] at h
      · by_cases hR : articles = []
        · simp [analyze_topic, hA, hK, hU, hR] at h
        · cases agentExc with
          | some msg => simp [analyze_topic, hA, hK, hU, hR] at h
          | none =>
            simp [analyze_topic, hA, hK, hU, hR] at h
            exact h.symm
    · simp [analyze_topic, hA, hK] at h

/-- C1 counterexample: a successful run (one retrieved article with a URL,
whose single inference call fails) has `sum(bias_counts.values()) = 0` but a
`sources` list of length 1 — the claimed equality with `len(sources)` fails. -/
theorem bias_counts_sources_cex :
    ((analyze_topic "t" (some "k") (some "k") ["u"] [artC] none []
        inferNoneC inferNoneC synthC omitC).1.toOption.map
        (fun r => (r.sources_count, r.sources.length))) = some (0, 1) ∧
    (0 : Nat) ≠ 1 := by
  constructor <;> decide

/-- C1 (amended): for every successful run, the sum of the three bias_counts
values equals the number of ClassifiedArticle records produced by the
classification stage and equals the response's `sources_count` field; the
`sources` list, by contrast, is the truthy-URL projection of the retrieved
articles, whose length can differ (length-filtered, inference-dropped, or
URL-less articles). -/
theorem bias_counts_consistency (topicRaw : String)
    (groqKey serpKey : Option String) (urls : List String)
    (articles : List Article) (agentExc : Option String)
    (cache0 : List CacheEntry)
    (inferA inferB : ValidArticle → Option ArticleAnalysis)
    (synth omitFn : String → String → String → String) (r : AnalysisResponse)
    (h : (analyze_topic topicRaw groqKey serpKey urls articles agentExc cache0
            inferA inferB synth omitFn).1 = .ok r) :
    r.sources_count = r.bias_counts.left + r.bias_counts.center + r.bias_counts.right ∧
    r.sources_count = (run_full_analysis (pyStrip topicRaw) articles cache0
        inferA inferB synth omitFn).classified.length ∧
    r.sources = sourcesList articles := by
  have hr := analyze_topic_ok_inv topicRaw groqKey serpKey urls articles agentExc
    cache0 inferA inferB synth omitFn r h
  subst hr
  exact ⟨rfl,
    biasGroup_length_sum (run_full_analysis (pyStrip topicRaw) articles cache0
      inferA inferB synth omitFn).classified,
    rfl⟩

/-- C1 witness: a concrete successful run where the invariant between
`sources_count`, the bias counts and the classified-article count holds. -/
theorem bias_counts_consistency_witness :
    (buildResponse (pyStrip "t") [artC]
        (run_full_analysis (pyStrip "t") [artC] [] inferLeftC inferLeftC synthC omitC)).sources_count =
      (buildResponse (pyStrip "t") [artC]
        (run_full_analysis (pyStrip "t") [artC] [] inferLeftC inferLeftC synthC omitC)).bias_counts.left +
      (buildResponse (pyStrip "t") [artC]
        (run_full_analysis (pyStrip "t") [artC] [] inferLeftC inferLeftC synthC omitC)).bias_counts.center +
      (buildResponse (pyStrip "t") [artC]
        (run_full_analysis (pyStrip "t") [artC] [] inferLeftC inferLeftC synthC omitC)).bias_counts.right ∧
    (buildResponse (pyStrip "t") [artC]
        (run_full_analysis (pyStrip "t") [artC] [] inferLeftC inferLeftC synthC omitC)).sources_count =
      (run_full_analysis (pyStrip "t") [artC] [] inferLeftC inferLeftC synthC omitC).classified.length ∧
    (buildResponse (pyStrip "t") [artC]
        (run_full_analysis (pyStrip "t") [artC] [] inferLeftC inferLeftC synthC omitC)).sources =
      sourcesList [artC] :=
  bias_counts_consistency "t" (some "k") (some "k") ["u"] [artC] none []
    inferLeftC inferLeftC synthC omitC _ (by rfl)

/-- The URLs of the assembled sources list are exactly the truthy URLs of the
retrieved articles, in retrieval order. -/
theorem sourcesList_map_url (articles : List Article) :
    (sourcesList articles).map SourceItem.url = truthyUrls articles := by
  induction articles with
  | nil => rfl
  | cons a rest ih =>
    simp only [sourcesList, truthyUrls, List.filterMap_cons] at *
    cases a.url with
    | none => simpa using ih
    | some u =>
      by_cases hu : u = "" <;> simp [hu] <;> simpa using ih

/-- C5 counterexample: when retrieval yields the same URL twice (a scraper
response with two successful items for `u`), the successful run's `sources`
list contains two entries with the same URL — the assembly performs no
deduplication. -/
theorem sources_dedup_cex :
    ((analyze_topic "t" (some "k") (some "k") ["u"]
        (fetch_articles srcIdC [some [itemC, itemC]]) none []
        inferNoneC inferNoneC synthC omitC).1.toOption.map
        (fun r => r.sources.map SourceItem.url)) = some ["u", "u"] ∧
    ¬(["u", "u"] : List String).Nodup := by
  constructor <;> decide

/-- C5 (amended): for every successful run, the `sources` list is the
order-preserving projection of the retrieved articles with a non-empty URL
(so it preserves discovery order whenever retrieval preserves request order),
and it is free of duplicate URLs whenever the retrieved articles' non-empty
URLs are pairwise distinct; the assembly itself performs no deduplication. -/
theorem sources_order_dedup (topicRaw : String)
    (groqKey serpKey : Option String) (urls : List String)
    (articles : List Article) (agentExc : Option String)
    (cache0 : List CacheEntry)
    (inferA inferB : ValidArticle → Option ArticleAnalysis)
    (synth omitFn : String → String → String → String) (r : AnalysisResponse)
    (h : (analyze_topic topicRaw groqKey serpKey urls articles agentExc cache0
            inferA inferB synth omitFn).1 = .ok r) :
    r.sources.map SourceItem.url = truthyUrls articles ∧
    ((truthyUrls articles).Nodup → (r.sources.map SourceItem.url).Nodup) := by
  have hr := analyze_topic_ok_inv topicRaw groqKey serpKey urls articles agentExc
    cache0 inferA inferB synth omitFn r h
  subst hr
  refine ⟨sourcesList_map_url articles, fun hnd => ?_⟩
  show ((sourcesList articles).map SourceItem.url).Nodup
  rw [sourcesList_map_url articles]
  exact hnd

/-- C5 witness: a concrete successful single-article run whose sources list is
the article's URL and is duplicate-free. -/
theorem sources_order_dedup_witness :
    (buildResponse (pyStrip "t") [artC]
        (run_full_analysis (pyStrip "t") [artC] [] inferLeftC inferLeftC synthC omitC)).sources.map
        SourceItem.url = truthyUrls [artC] ∧
    ((truthyUrls [artC]).Nodup →
      ((buildResponse (pyStrip "t") [artC]
          (run_full_analysis (pyStrip "t") [artC] [] inferLeftC inferLeftC synthC omitC)).sources.map
          SourceItem.url).Nodup) :=
  sources_order_dedup "t" (some "k") (some "k") ["u"] [artC] none []
    inferLeftC inferLeftC synthC omitC _ (by rfl)

/-- Two caches with the same skeleton have, for every URL, matching rows with
the same classification payloads. -/
theorem urlMatches_skeleton {c1 c2 : List CacheEntry}
    (h : cacheSkeleton c1 = cacheSkeleton c2) (url : Option String) :
    (urlMatches c1 url).map entryKey = (urlMatches c2 url).map entryKey := by
  cases url with
  | none => rfl
  | some u =>
    revert h
    induction c1 generalizing c2 with
    | nil =>
      intro h
      cases c2 with
      | nil => rfl
      | cons b bs => simp [cacheSkeleton] at h
    | cons a as ih =>
      intro h
      cases c2 with
      | nil => simp [cacheSkeleton] at h
      | cons b bs =>
        simp only [cacheSkeleton, List.map_cons, List.cons.injEq] at h
        obtain ⟨hab, hrest⟩ := h
        have hurl : a.url = b.url := congrArg Prod.fst hab
        simp only [urlMatches, List.filter_cons]
        by_cases hp : (a.url == some u) = true
        · rw [if_pos hp, if_pos (by rw [← hurl]; exact hp)]
          simp only [List.map_cons]
          exact congrArg₂ List.cons hab (ih hrest)
        · rw [if_neg hp, if_neg (by rw [← hurl]; exact hp)]
          exact ih hrest

/-- Cache-hit eligibility only depends on the cache skeleton. -/
theorem cachedGoodB_congr {c1 c2 : List CacheEntry}
    (h : cacheSkeleton c1 = cacheSkeleton c2) (a : ValidArticle) :
    cachedGoodB c1 a = cachedGoodB c2 a := by
  unfold cachedGoodB
  rw [urlMatches_skeleton h]

/-- The cached pair only depends on the cache skeleton. -/
theorem cachedPair_congr {c1 c2 : List CacheEntry}
    (h : cacheSkeleton c1 = cacheSkeleton c2) (a : ValidArticle) :
    cachedPair c1 a = cachedPair c2 a := by
  unfold cachedPair
  rw [urlMatches_skeleton h]

/-- A matching row exists only for a present URL. -/
theorem url_of_matches {cache : List CacheEntry} {url : Option String}
    {e : CacheEntry} (hm : urlMatches cache url = [e]) : ∃ u, url = some u := by
  cases url with
  | none => simp [urlMatches] at hm
  | some u => exact ⟨u, rfl⟩

/-- Eliminating cache-hit eligibility: the unique row, its summary truthiness,
its bias, and the cached pair it induces. -/
theorem cachedGoodB_elim {cache : List CacheEntry} {a : ValidArticle}
    (h : cachedGoodB cache a = true) :
    ∃ e b, urlMatches cache a.url = [e] ∧ truthyOpt e.summary = true ∧
      e.bias_rating = some b ∧
      cachedPair cache a = { bias := b, summary := e.summary.getD "" } := by
  unfold cachedGoodB at h
  cases hm : urlMatches cache a.url with
  | nil => rw [hm] at h; simp [goodKeyList] at h
  | cons e rest =>
    cases rest with
    | nil =>
      rw [hm] at h
      simp only [List.map_cons, List.map_nil] at h
      have h' : (truthyOpt e.summary && e.bias_rating.isSome) = true := h
      rw [Bool.and_eq_true] at h'
      obtain ⟨hs, hb⟩ := h'
      obtain ⟨b, hb'⟩ := Option.isSome_iff_exists.mp hb
      refine ⟨e, b, rfl, hs, hb', ?_⟩
      unfold cachedPair
      rw [hm]
      simp [pairKeyList, entryKey, hb']
    | cons f rest2 => rw [hm] at h; simp [goodKeyList] at h

/-- With a unique matching row, every row passing the URL filter is that
row. -/
theorem matches_unique {cache : List CacheEntry} {u : String} {e : CacheEntry}
    (hm : urlMatches cache (some u) = [e]) :
    ∀ f ∈ cache, (f.url == some u) = true → f = e := by
  intro f hf hp
  have hmem : f ∈ urlMatches cache (some u) :=
    List.mem_filter.mpr ⟨hf, hp⟩
  rw [hm] at hmem
  simpa using hmem

/-- Replacing a row by one with the same classification payload preserves the
cache skeleton. -/
theorem replace_skeleton {u : String} {e' : CacheEntry} {cache : List CacheEntry}
    (h : ∀ f ∈ cache, (f.url == some u) = true → entryKey e' = entryKey f) :
    cacheSkeleton (cacheReplace (some u) e' cache) = cacheSkeleton cache := by
  induction cache with
  | nil => rfl
  | cons f fs ih =>
    by_cases hf : (f.url == some u) = true
    · simp only [cacheReplace, if_pos hf, cacheSkeleton, List.map_cons]
      rw [h f (List.mem_cons_self f fs) hf]
    · simp only [cacheReplace, if_neg hf, cacheSkeleton, List.map_cons]
      have := ih (fun g hg hp => h g (List.mem_cons_of_mem f hg) hp)
      simp only [cacheSkeleton] at this
      rw [this]

/-- After replacing the unique matching row, the replacement is the unique
matching row. -/
theorem matches_replace_self {cache : List CacheEntry} {u : String}
    {e e' : CacheEntry} (hm : urlMatches cache (some u) = [e])
    (hu' : (e'.url == some u) = true) :
    urlMatches (cacheReplace (some u) e' cache) (some u) = [e'] := by
  induction cache with
  | nil => simp [urlMatches] at hm
  | cons f fs ih =>
    by_cases hf : (f.url == some u) = true
    · simp only [urlMatches, List.filter_cons, if_pos hf] at hm
      have hrest : List.filter (fun e => e.url == some u) fs = [] := by
        cases hmm : List.filter (fun e => e.url == some u) fs with
        | nil => rfl
        | cons g gs => rw [hmm] at hm; simp at hm
      simp only [cacheReplace, if_pos hf, urlMatches, List.filter_cons, if_pos hu']
      rw [hrest]
    · simp only [cacheReplace, if_neg hf, urlMatches, List.filter_cons, if_neg hf]
      simp only [urlMatches, List.filter_cons, if_neg hf] at hm
      exact ih hm

/-- Unfolding of the URL filter over a cons cell. -/
theorem urlMatches_cons (f : CacheEntry) (fs : List CacheEntry) (v : String) :
    urlMatches (f :: fs) (some v) =
      if (f.url == some v) = true then f :: urlMatches fs (some v)
      else urlMatches fs (some v) := by
  simp only [urlMatches, List.filter_cons]

/-- Replacing a row for URL `u` leaves the matches of any other URL
unchanged. -/
theorem matches_replace_other {u : String} {e' : CacheEntry}
    (cache : List CacheEntry) (hu' : e'.url = some u) (v : String) (hne : v ≠ u) :
    urlMatches (cacheReplace (some u) e' cache) (some v) = urlMatches cache (some v) := by
  have h1 : ¬(e'.url == some v) = true := by
    rw [hu']
    simp only [beq_iff_eq, Option.some.injEq]
    exact fun h => hne h.symm
  induction cache with
  | nil => rfl
  | cons f fs ih =>
    by_cases hf : (f.url == some u) = true
    · have hfu : f.url = some u := by simpa using hf
      have h2 : ¬(f.url == some v) = true := by
        rw [hfu]
        simp only [beq_iff_eq, Option.some.injEq]
        exact fun h => hne h.symm
      simp only [cacheReplace, if_pos hf]
      rw [urlMatches_cons, urlMatches_cons, if_neg h1, if_neg h2]
    · simp only [cacheReplace, if_neg hf]
      rw [urlMatches_cons, urlMatches_cons]
      by_cases hfv : (f.url == some v) = true
      · rw [if_pos hfv, if_pos hfv, ih]
      · rw [if_neg hfv, if_neg hfv, ih]

/-- The cache-hit behaviour of `process_article`: with a unique matching row
carrying a truthy summary and a bias, it returns the cached pair, commits the
topic/content refresh, and makes no inference call. -/
theorem process_article_hit (topic : String) (a : ValidArticle)
    (cache : List CacheEntry) (e : CacheEntry) (b : String)
    (hm : urlMatches cache a.url = [e]) (hs : truthyOpt e.summary = true)
    (hb : e.bias_rating = some b) (infer : Option ArticleAnalysis) (w : Bool) :
    process_article topic a cache true infer w =
      { analysis := some { bias := b, summary := e.summary.getD "" },
        cache := cacheReplace a.url (hitUpdate topic a e) cache,
        inferCalls := 0 } := by
  have hb' : (hitUpdate topic a e).bias_rating = some b := hb
  simp [process_article, hm, hs, hb, hb', hitUpdate]

/-- The refreshed row of a cache hit carries the current topic and a filled-in
content (backfilled from the article when it was missing). -/
theorem hitUpdate_fresh (topic : String) (a : ValidArticle) (e : CacheEntry)
    (ht : a.text ≠ "") : entryFresh topic (hitUpdate topic a e) := by
  refine ⟨rfl, ?_⟩
  by_cases hc : truthyOpt e.content = true
  · simp [hitUpdate, hc]
  · simp only [hitUpdate, if_neg hc]
    show truthyOpt (some a.text) = true
    simp only [truthyOpt]
    exact bne_iff_ne.mpr ht

/-- Every article kept by the length filter has a resolved text longer than
100 characters. -/
theorem valid_text_pos (articles : List Article) :
    ∀ a ∈ validArticles articles, 100 < a.text.length := by
  intro a ha
  simp only [validArticles, List.mem_filterMap] at ha
  obtain ⟨x, hx, hif⟩ := ha
  by_cases hc : resolveText x ≠ "" ∧ (resolveText x).length > 100
  · rw [if_pos hc] at hif
    obtain rfl := Option.some.inj hif
    exact hc.2
  · rw [if_neg hc] at hif
    exact absurd hif (by simp)

/-- Every kept article has a non-empty resolved text. -/
theorem valid_text_ne (articles : List Article) :
    ∀ a ∈ validArticles articles, a.text ≠ "" := by
  intro a ha h0
  have := valid_text_pos articles a ha
  rw [h0] at this
  simp at this

/-- The classification lane over a batch of fully cached articles: it returns
exactly the cached pairs in input order, makes zero inference calls, leaves
every row's URL/bias/summary untouched, preserves row freshness at every URL,
and leaves every batch URL's rows rebound to the current topic with content
filled in. -/
theorem processBatch_all_cached (topic : String) (batch : List ValidArticle)
    (cache : List CacheEntry) (infer : ValidArticle → Option ArticleAnalysis)
    (hgood : ∀ a ∈ batch, cachedGoodB cache a = true)
    (htext : ∀ a ∈ batch, a.text ≠ "") :
    (processBatch topic batch cache infer).results = batch.map (cachedPair cache) ∧
    (processBatch topic batch cache infer).calls = 0 ∧
    cacheSkeleton (processBatch topic batch cache infer).cache = cacheSkeleton cache ∧
    (∀ v : Option String,
       (∀ e ∈ urlMatches cache v, entryFresh topic e) →
       ∀ e ∈ urlMatches (processBatch topic batch cache infer).cache v, entryFresh topic e) ∧
    (∀ a ∈ batch, ∀ e ∈ urlMatches (processBatch topic batch cache infer).cache a.url,
       entryFresh topic e) := by
  induction batch generalizing cache with
  | nil => exact ⟨rfl, rfl, rfl, fun v hv => hv, by simp⟩
  | cons a rest ih =>
    obtain ⟨e, b, hm, hs, hb, hpair⟩ :=
      cachedGoodB_elim (hgood a (List.mem_cons_self a rest))
    obtain ⟨u, hu⟩ := url_of_matches hm
    have hmu : urlMatches cache (some u) = [e] := hu ▸ hm
    have heurl : (e.url == some u) = true := by
      have hmem : e ∈ urlMatches cache (some u) := by rw [hmu]; simp
      exact (List.mem_filter.mp hmem).2
    have heu : ((hitUpdate topic a e).url == some u) = true := heurl
    have hstep := process_article_hit topic a cache e b hm hs hb (infer a) true
    have hskel : cacheSkeleton (cacheReplace a.url (hitUpdate topic a e) cache) =
        cacheSkeleton cache := by
      rw [hu]
      exact replace_skeleton (fun f hf hp => by rw [matches_unique hmu f hf hp]; rfl)
    have hfreshC' : ∀ v : Option String,
        (∀ f ∈ urlMatches cache v, entryFresh topic f) →
        ∀ f ∈ urlMatches (cacheReplace a.url (hitUpdate topic a e) cache) v,
          entryFresh topic f := by
      intro v hv f hf
      cases v with
      | none => simp [urlMatches] at hf
      | some w =>
        by_cases hw : w = u
        · subst hw
          rw [hu, matches_replace_self hmu heu] at hf
          have hf' : f = hitUpdate topic a e := by simpa using hf
          rw [hf']
          exact hitUpdate_fresh topic a e (htext a (List.mem_cons_self a rest))
        · rw [hu, matches_replace_other cache (by simpa using heu) w hw] at hf
          exact hv f hf
    have hfreshSelf : ∀ f ∈ urlMatches (cacheReplace a.url (hitUpdate topic a e) cache)
        a.url, entryFresh topic f := by
      intro f hf
      rw [hu, matches_replace_self hmu heu] at hf
      have hf' : f = hitUpdate topic a e := by simpa using hf
      rw [hf']
      exact hitUpdate_fresh topic a e (htext a (List.mem_cons_self a rest))
    have hgood' : ∀ x ∈ rest, cachedGoodB (cacheReplace a.url (hitUpdate topic a e) cache) x = true :=
      fun x hx => (cachedGoodB_congr hskel x).trans (hgood x (List.mem_cons_of_mem a hx))
    have htext' : ∀ x ∈ rest, x.text ≠ "" :=
      fun x hx => htext x (List.mem_cons_of_mem a hx)
    obtain ⟨ihres, ihcalls, ihskel, ihpres, ihrest⟩ :=
      ih (cacheReplace a.url (hitUpdate topic a e) cache) hgood' htext'
    have hunfold : processBatch topic (a :: rest) cache infer =
        { results := (some (ArticleAnalysis.mk b (e.summary.getD ""))).toList ++
            (processBatch topic rest (cacheReplace a.url (hitUpdate topic a e) cache) infer).results,
          cache := (processBatch topic rest (cacheReplace a.url (hitUpdate topic a e) cache) infer).cache,
          calls := 0 + (processBatch topic rest (cacheReplace a.url (hitUpdate topic a e) cache) infer).calls } := by
      simp only [processBatch, hstep]
    refine ⟨?_, ?_, ?_, ?_, ?_⟩
    · rw [hunfold]
      simp only [Option.toList_some, List.singleton_append, List.map_cons]
      rw [ihres, hpair]
      exact congrArg _ (List.map_congr_left (fun x hx => cachedPair_congr hskel x))
    · rw [hunfold]
      simp only [ihcalls]
    · rw [hunfold]
      exact ihskel.trans hskel
    · intro v hv
      rw [hunfold]
      exact ihpres v (hfreshC' v hv)
    · intro x hx
      rcases List.mem_cons.mp hx with rfl | hx'
    
      · rw [hunfold]
        exact ihpres x.url hfreshSelf
      · rw [hunfold]
        exact ihrest x hx'

/-- C2 counterexample: a URL present in the Result Cache (one matching row,
cached under topic `T1`) whose `summary` column is the empty string is
re-classified on the next run — an inference call is made and a fresh pair
returned, contradicting the claim for arbitrary cached URLs. -/
theorem cache_idempotence_cex :
    (urlMatches [entryEmptySummaryC] (some "u")).length = 1 ∧
    (run_full_analysis "T2" [artC] [entryEmptySummaryC]
        (fun _ => some { bias := "Right", summary := "s2" })
        (fun _ => some { bias := "Right", summary := "s2" }) synthC omitC).inferCalls = 1 ∧
    (run_full_analysis "T2" [artC] [entryEmptySummaryC]
        (fun _ => some { bias := "Right", summary := "s2" })
        (fun _ => some { bias := "Right", summary := "s2" }) synthC omitC).classified =
      [{ bias := "Right", summary := "s2" }] := by
  refine ⟨by decide, by decide, by decide⟩

/-- C2 (amended): when every valid article's URL has exactly one cache row
with a recorded non-empty `summary` and a non-null `bias_rating`, re-running
the pipeline with a (possibly different) topic makes zero classification
inference calls, returns for each article exactly the cached (bias, summary)
pair, never alters any row's URL, bias or summary, and rebinds each such
row's `topic` to the new topic while backfilling `content` when it was
missing. -/
theorem run_cached_idempotent (topic : String) (articles : List Article)
    (cache0 : List CacheEntry)
    (inferA inferB : ValidArticle → Option ArticleAnalysis)
    (synth omitFn : String → String → String → String)
    (hgood : ∀ a ∈ validArticles articles, cachedGoodB cache0 a = true) :
    (run_full_analysis topic articles cache0 inferA inferB synth omitFn).inferCalls = 0 ∧
    (run_full_analysis topic articles cache0 inferA inferB synth omitFn).classified =
      (validArticles articles).map (cachedPair cache0) ∧
    cacheSkeleton (run_full_analysis topic articles cache0 inferA inferB synth omitFn).cache =
      cacheSkeleton cache0 ∧
    (∀ a ∈ validArticles articles,
       ∀ e ∈ urlMatches (run_full_analysis topic articles cache0 inferA inferB
           synth omitFn).cache a.url,
         e.topic = some topic ∧ truthyOpt e.content = true) := by
  have hsplit : (validArticles articles).take ((validArticles articles).length / 2) ++
      (validArticles articles).drop ((validArticles articles).length / 2) =
      validArticles articles := List.take_append_drop _ _
  have memtake : ∀ a ∈ (validArticles articles).take ((validArticles articles).length / 2),
      a ∈ validArticles articles := fun a ha => by
    rw [← hsplit]; exact List.mem_append_left _ ha
  have memdrop : ∀ a ∈ (validArticles articles).drop ((validArticles articles).length / 2),
      a ∈ validArticles articles := fun a ha => by
    rw [← hsplit]; exact List.mem_append_right _ ha
  have htext := valid_text_ne articles
  obtain ⟨hAres, hAcalls, hAskel, hApres, hAfresh⟩ :=
    processBatch_all_cached topic
      ((validArticles articles).take ((validArticles articles).length / 2)) cache0 inferA
      (fun a ha => hgood a (memtake a ha)) (fun a ha => htext a (memtake a ha))
  obtain ⟨hBres, hBcalls, hBskel, hBpres, hBfresh⟩ :=
    processBatch_all_cached topic
      ((validArticles articles).drop ((validArticles articles).length / 2))
      (processBatch topic
        ((validArticles articles).take ((validArticles articles).length / 2)) cache0 inferA).cache
      inferB
      (fun a ha => (cachedGoodB_congr hAskel a).trans (hgood a (memdrop a ha)))
      (fun a ha => htext a (memdrop a ha))
  refine ⟨?_, ?_, ?_, ?_⟩
  · show (processBatch topic _ cache0 inferA).calls + (processBatch topic _ _ inferB).calls = 0
    rw [hAcalls, hBcalls]
  · show (processBatch topic _ cache0 inferA).results ++ (processBatch topic _ _ inferB).results = _
    rw [hAres, hBres,
      List.map_congr_left (fun x hx => cachedPair_congr hAskel x),
      ← List.map_append, hsplit]
  · exact hBskel.trans hAskel
  · intro a ha e he
    rcases List.mem_append.mp (hsplit ▸ ha) with h1 | h1
    · exact hBpres a.url (fun f hf => hAfresh a h1 f hf) e he
    · exact hBfresh a h1 e he

/-- C2 witness: one article whose URL is cached under topic `T1` with a
recorded pair — re-running under topic `T2` makes zero inference calls and
returns the cached pair. -/
theorem run_cached_idempotent_witness :
    (run_full_analysis "T2" [artC] [entryT1C] inferNoneC inferNoneC synthC omitC).inferCalls = 0 ∧
    (run_full_analysis "T2" [artC] [entryT1C] inferNoneC inferNoneC synthC omitC).classified =
      (validArticles [artC]).map (cachedPair [entryT1C]) :=
  ⟨(run_cached_idempotent "T2" [artC] [entryT1C] inferNoneC inferNoneC synthC omitC
      (by decide)).1,
   (run_cached_idempotent "T2" [artC] [entryT1C] inferNoneC inferNoneC synthC omitC
      (by decide)).2.1⟩

/-- Progress percentages distribute over stream concatenation. -/
theorem pctsOf_append (l1 l2 : List StreamEvent) :
    pctsOf (l1 ++ l2) = pctsOf l1 ++ pctsOf l2 := by
  simp [pctsOf, List.filterMap_append]

/-- The percentages of a mapped family of progress events. -/
theorem pctsOf_map {α : Type} (ph : String) (f : α → Nat) (msg : α → String)
    (l : List α) :
    pctsOf (l.map (fun x => StreamEvent.progress ph (f x) (msg x))) = l.map f := by
  induction l with
  | nil => rfl
  | cons x xs ih =>
    simpa [pctsOf, List.filterMap_cons, StreamEvent.percentOf] using ih

/-- Every scrape progress event is a progress event. -/
theorem scrape_events_progress (total k : Nat) :
    ∀ e ∈ scrapeProgressEvents total k, e.isProgressEv = true := by
  intro e he
  simp only [scrapeProgressEvents, List.mem_map] at he
  obtain ⟨i, _, rfl⟩ := he
  rfl

/-- Every heartbeat event is a progress event. -/
theorem heartbeat_events_progress (h : Nat) :
    ∀ e ∈ heartbeatEvents h, e.isProgressEv = true := by
  intro e he
  simp only [heartbeatEvents, List.mem_map] at he
  obtain ⟨i, _, rfl⟩ := he
  rfl

/-- The scraping percentage never drops below 15. -/
theorem scrapePct_ge (total c : Nat) : 15 ≤ scrapePct total c := by
  unfold scrapePct
  split
  · exact le_refl 15
  · exact Nat.le_add_right 15 _

/-- The scraping percentage is monotone in the completed count. -/
theorem scrapePct_mono (total : Nat) {i j : Nat} (h : i ≤ j) :
    scrapePct total i ≤ scrapePct total j := by
  unfold scrapePct
  split
  · exact le_refl 15
  · exact Nat.add_le_add_left (Nat.div_le_div_right (Nat.mul_le_mul_left 45 h)) 15

/-- The scraping percentage is capped at 60 while completed ≤ total. -/
theorem scrapePct_le (total c : Nat) (hc : c ≤ total) : scrapePct total c ≤ 60 := by
  unfold scrapePct
  split
  · omega
  · next h0 =>
    have h1 : 45 * c ≤ 45 * total := Nat.mul_le_mul_left 45 hc
    have h2 : 45 * c / total ≤ 45 * total / total := Nat.div_le_div_right h1
    have h3 : 45 * total / total = 45 :=
      Nat.mul_div_cancel 45 (Nat.pos_of_ne_zero h0)
    omega

/-- A monotone image of `range` is non-decreasing. -/
theorem pairwise_map_range (f : Nat → Nat) (hf : ∀ i j, i ≤ j → f i ≤ f j)
    (k : Nat) : ((List.range k).map f).Pairwise (· ≤ ·) :=
  (List.pairwise_lt_range k).map f (fun a b hab => hf a b (Nat.le_of_lt hab))

/-- The full success-path percentage sequence of the streamer is
non-decreasing: 5, 15, 15, the scraping sub-range (≤ 60), 60, 65, the
heartbeat ramp 68..92, then 95. -/
theorem stream_pcts_pairwise (total k h : Nat) (hk : k ≤ total) :
    (((([5, 15, 15] ++ (List.range k).map (fun i => scrapePct total (i + 1))) ++
        [60, 65]) ++ (List.range (min h 9)).map (fun i => 68 + 3 * i)) ++
      [95] : List Nat).Pairwise (· ≤ ·) := by
  have hs_mem : ∀ x ∈ (List.range k).map (fun i => scrapePct total (i + 1)),
      15 ≤ x ∧ x ≤ 60 := by
    intro x hx
    simp only [List.mem_map, List.mem_range] at hx
    obtain ⟨i, hi, rfl⟩ := hx
    exact ⟨scrapePct_ge total (i + 1), scrapePct_le total (i + 1) (by omega)⟩
  have hh_mem : ∀ x ∈ (List.range (min h 9)).map (fun i => 68 + 3 * i),
      68 ≤ x ∧ x ≤ 92 := by
    intro x hx
    simp only [List.mem_map, List.mem_range] at hx
    obtain ⟨i, hi, rfl⟩ := hx
    have h9 : i < 9 := lt_of_lt_of_le hi (min_le_right h 9)
    omega
  have hA_mem : ∀ x ∈ ([5, 15, 15] : List Nat), x ≤ 15 := by
    intro x hx
    simp only [List.mem_cons, List.not_mem_nil, or_false] at hx
    rcases hx with rfl | rfl | rfl <;> omega
  refine List.pairwise_append.mpr ⟨?_, ?_, ?_⟩
  · refine List.pairwise_append.mpr ⟨?_, ?_, ?_⟩
    · refine List.pairwise_append.mpr ⟨?_, ?_, ?_⟩
      · refine List.pairwise_append.mpr ⟨?_, ?_, ?_⟩
        · decide
        · exact pairwise_map_range _ (fun i j hij => scrapePct_mono total (by omega)) k
        · intro x hx y hy
          have := hA_mem x hx
          have := (hs_mem y hy).1
          omega
      · decide
      · intro x hx y hy
        have hy' : y = 60 ∨ y = 65 := by
          simpa [List.mem_cons] using hy
        rcases List.mem_append.mp hx with h1 | h1
        · have := hA_mem x h1
          omega
        · have := (hs_mem x h1).2
          omega
    · exact pairwise_map_range _ (fun i j hij => by omega) (min h 9)
  
    · intro x hx y hy
      have hy' := (hh_mem y hy).1
      rcases List.mem_append.mp hx with h1 | h1
      · rcases List.mem_append.mp h1 with h2 | h2
        · have := hA_mem x h2
          omega
        · have := (hs_mem x h2).2
          omega
      · have hx' : x = 60 ∨ x = 65 := by simpa [List.mem_cons] using h1
        omega
  · decide
  · intro x hx y hy
    have hy' : y = 95 := by simpa using hy
    rcases List.mem_append.mp hx with h1 | h1
    · rcases List.mem_append.mp h1 with h2 | h2
      · rcases List.mem_append.mp h2 with h3 | h3
        · have := hA_mem x h3
          omega
        · have := (hs_mem x h3).2
          omega
      · have hx' : x = 60 ∨ x = 65 := by simpa [List.mem_cons] using h2
        omega
    · have := (hh_mem x h1).2
      omega

/-- C3: every emitted event stream is a prefix of progress events with
non-decreasing percentages, followed by exactly one terminal event — a
`result` exactly when discovery and retrieval produced data and the analysis
did not raise, an `error` otherwise — and then the single closing sentinel,
with nothing after it.  (`scrapeK ≤ |urls|`: the retrieval collaborator
reports at most one completion per requested URL.) -/
theorem stream_event_protocol (topic : String) (urls : List String)
    (scrapeK : Nat) (articles : List Article) (heartbeats : Nat)
    (agentExc : Option String) (cache0 : List CacheEntry)
    (inferA inferB : ValidArticle → Option ArticleAnalysis)
    (synth omitFn : String → String → String → String)
    (hk : scrapeK ≤ urls.length) :
    streamShape
      (run_analysis_stream topic urls scrapeK articles heartbeats agentExc
        cache0 inferA inferB synth omitFn)
      (!urls.isEmpty && (!articles.isEmpty && agentExc.isNone)) := by
  by_cases h1 : urls = []
  · subst h1
    refine ⟨[.progress "discovery" 5 "Finding sources..."],
      .error "No relevant sources found for this topic", ?_, ?_, ?_, ?_⟩
    · simp [run_analysis_stream]
    · intro e he
      simp only [List.mem_singleton] at he
      subst he
      rfl
    · decide
    · simp
  · obtain ⟨u0, us, rfl⟩ := List.exists_cons_of_ne_nil h1
    have hS : pctsOf (scrapeProgressEvents (u0 :: us).length scrapeK) =
        (List.range scrapeK).map (fun i => scrapePct (u0 :: us).length (i + 1)) :=
      pctsOf_map _ _ _ _
    have hSp := scrape_events_progress (u0 :: us).length scrapeK
    by_cases h2 : articles = []
    · subst h2
      refine ⟨[.progress "discovery" 5 "Finding sources...",
        .progress "discovery" 15 ("Found " ++ toString (u0 :: us).length ++ " sources"),
        .progress "scraping" 15 "Ingesting data..."] ++
          scrapeProgressEvents (u0 :: us).length scrapeK,
        .error "Could not fetch article content. The scraper may be starting up—please try again in a minute.",
        ?_, ?_, ?_, ?_⟩
      · simp [run_analysis_stream]
      · intro e he
        rcases List.mem_append.mp he with h | h
        · simp only [List.mem_cons, List.not_mem_nil, or_false] at h
          rcases h with rfl | rfl | rfl <;> rfl
        · exact hSp e h
      · rw [pctsOf_append, hS]
        have := stream_pcts_pairwise (u0 :: us).length scrapeK heartbeats hk
        exact this.sublist
          (((List.sublist_append_left _ _).trans
            (List.sublist_append_left _ _)).trans (List.sublist_append_left _ _))
      · simp
    · obtain ⟨a0, as, rfl⟩ := List.exists_cons_of_ne_nil h2
      have hH : pctsOf (heartbeatEvents heartbeats) =
          (List.range (min heartbeats 9)).map (fun i => 68 + 3 * i) :=
        pctsOf_map _ _ _ _
      have hHp := heartbeat_events_progress heartbeats
      cases agentExc with
      | some msg =>
        refine ⟨(([.progress "discovery" 5 "Finding sources...",
            .progress "discovery" 15 ("Found " ++ toString (u0 :: us).length ++ " sources"),
            .progress "scraping" 15 "Ingesting data..."] ++
              scrapeProgressEvents (u0 :: us).length scrapeK) ++
            [.progress "scraping" 60 "Scraping complete",
             .progress "analysis" 65 "Synthesizing narratives..."]) ++
            heartbeatEvents heartbeats,
          .error msg, ?_, ?_, ?_, ?_⟩
        · simp [run_analysis_stream]
        · intro e he
          rcases List.mem_append.mp he with h | h
          · rcases List.mem_append.mp h with h' | h'
            · rcases List.mem_append.mp h' with h'' | h''
              · simp only [List.mem_cons, List.not_mem_nil, or_false] at h''
                rcases h'' with rfl | rfl | rfl <;> rfl
              · exact hSp e h''
            · simp only [List.mem_cons, List.not_mem_nil, or_false] at h'
              rcases h' with rfl | rfl <;> rfl
          · exact hHp e h
        · rw [pctsOf_append, pctsOf_append, pctsOf_append, hS, hH]
          have := stream_pcts_pairwise (u0 :: us).length scrapeK heartbeats hk
          exact this.sublist (List.sublist_append_left _ _)
        · simp
      | none =>
        refine ⟨((([.progress "discovery" 5 "Finding sources...",
            .progress "discovery" 15 ("Found " ++ toString (u0 :: us).length ++ " sources"),
            .progress "scraping" 15 "Ingesting data..."] ++
              scrapeProgressEvents (u0 :: us).length scrapeK) ++
            [.progress "scraping" 60 "Scraping complete",
             .progress "analysis" 65 "Synthesizing narratives..."]) ++
            heartbeatEvents heartbeats) ++
            [.progress "analysis" 95 "Almost done..."],
          .result (buildResponse topic (a0 :: as)
            (run_full_analysis topic (a0 :: as) cache0 inferA inferB synth omitFn)),
          ?_, ?_, ?_, ?_⟩
        · simp [run_analysis_stream]
        · intro e he
          rcases List.mem_append.mp he with h | h
          · rcases List.mem_append.mp h with h' | h'
            · rcases List.mem_append.mp h' with h'' | h''
              · rcases List.mem_append.mp h'' with h3 | h3
                · simp only [List.mem_cons, List.not_mem_nil, or_false] at h3
                  rcases h3 with rfl | rfl | rfl <;> rfl
                · exact hSp e h3
              · simp only [List.mem_cons, List.not_mem_nil, or_false] at h''
                rcases h'' with rfl | rfl <;> rfl
            · exact hHp e h'
          · simp only [List.mem_singleton] at h
            subst h
            rfl
        · rw [pctsOf_append, pctsOf_append, pctsOf_append, pctsOf_append, hS, hH]
          exact stream_pcts_pairwise (u0 :: us).length scrapeK heartbeats hk
        · simp

/-- C3 witness: a concrete successful run (one URL, one article, one scrape
callback, no heartbeats) produces a well-formed stream ending in a result. -/
theorem stream_event_protocol_witness :
    streamShape
      (run_analysis_stream "t" ["u"] 1 [artC] 0 none [] inferLeftC inferLeftC
        synthC omitC)
      (!(["u"] : List String).isEmpty && (!([artC] : List Article).isEmpty &&
        (none : Option String).isNone)) :=
  stream_event_protocol "t" ["u"] 1 [artC] 0 none [] inferLeftC inferLeftC
    synthC omitC (by decide)
